import Mathlib

/-!
Shallow embedding of the node-mimer native layer (src/connection.cc,
src/statement.cc, src/resultset.cc, src/helpers.cc) in Lean 4.

The SQL engine (Mimer C API) is external: every engine call is modelled by
an oracle parameter giving the call's return status and output data.  Pure
control flow, state updates and the values passed to the engine are
translated directly from the C++ sources.  JavaScript-level exceptions
(`ThrowAsJavaScriptException`) are modelled as an explicit `thrown` /
error-result channel.
-/

namespace NodeMimer

/-- The `MIMER_SUCCESS` status code of the engine API. -/
def MIMER_SUCCESS : Int := 0

/-- Distinguished positive return code of `MimerBeginStatement8` meaning the
statement is DDL and cannot be prepared (value from the engine interface
header; only its distinguishedness matters here). -/
def MIMER_STATEMENT_CANNOT_BE_PREPARED : Int := 23

/-- The `LOB_READ_CHUNK` from helpers.cc line 31. -/
def LOB_READ_CHUNK : Nat := 65536

/-- The `LOB_WRITE_CHUNK` from helpers.cc line 32 (2 MB). -/
def LOB_WRITE_CHUNK : Nat := 2 * 1024 * 1024

/-- A JavaScript number (an IEEE double), modelled by the exact rational
value it denotes when finite.  Only the predicates the code uses
(`std::isfinite`, `std::trunc(num) == num`, comparisons with the exactly
representable bounds `INT32_MIN`/`INT32_MAX`) are needed, and those are
exact on this representation. -/
inductive JsNum where
  | nan
  | posInf
  | negInf
  | finite (q : ℚ)
deriving DecidableEq

/-- The `std::isfinite(num)`. -/
def JsNum.isFiniteB : JsNum → Bool
  | .finite _ => true
  | _ => false

/-- The comparison `std::trunc(num) == num` (true for infinities, false for
NaN since NaN compares unequal to itself, integrality test for finite
values). -/
def JsNum.truncEqB : JsNum → Bool
  | .nan => false
  | .posInf => true
  | .negInf => true
  | .finite q => q.den = 1

/-- The double comparison `num >= bound` for an exactly representable
`bound` (false on NaN). -/
def JsNum.geB (n : JsNum) (bound : ℚ) : Bool :=
  match n with
  | .nan => false
  | .posInf => true
  | .negInf => false
  | .finite q => bound ≤ q

/-- The double comparison `num <= bound` for an exactly representable
`bound` (false on NaN). -/
def JsNum.leB (n : JsNum) (bound : ℚ) : Bool :=
  match n with
  | .nan => false
  | .posInf => false
  | .negInf => true
  | .finite q => q ≤ bound

/-- The `static_cast` of a double to an integer type: truncation toward zero
(only ever used by the code on finite integral values, where it is exact). -/
def JsNum.toIntCast : JsNum → Int
  | .finite q => if 0 ≤ q then q.floor else -((-q).floor)
  | _ => 0

/-- A JavaScript value as discriminated by the `Napi::Value` predicates in
`BindParameters` (helpers.cc lines 203-269).  Strings carry their UTF-8
bytes (`Utf8Value()`); the fallback case carries the bytes of
`val.ToString()`. -/
inductive JsValue where
  | null
  | undefined
  | boolean (b : Bool)
  | number (n : JsNum)
  | string (utf8 : List Nat)
  | buffer (bytes : List Nat)
  | other (stringified : List Nat)
deriving DecidableEq

/-- The `(c & 0xC0) == 0x80`: the byte is a UTF-8 continuation byte. -/
def isCont (b : Nat) : Bool := b &&& 0xC0 = 0x80

/-- The byte of `s` at index `i` (0 when out of range; the code never reads
out of range). -/
def byteAt (s : List Nat) (i : Nat) : Nat := (s.drop i).headD 0

/-- The per-lead-byte sequence length classification used by
`Utf8CharCount` (helpers.cc lines 37-48). -/
def utf8SeqLen (b : Nat) : Nat :=
  if b < 0x80 then 1
  else if b &&& 0xE0 = 0xC0 then 2
  else if b &&& 0xF0 = 0xE0 then 3
  else 4

/-- The `Utf8CharCount` (helpers.cc lines 37-48): number of code points,
advancing by the lead-byte classification. -/
def utf8CharCount : List Nat → Nat
  | [] => 0
  | b :: rest => 1 + utf8CharCount (rest.drop (utf8SeqLen b - 1))
termination_by l => l.length
decreasing_by
  simp only [List.length_cons, List.length_drop]
  omega

/-- Byte-at-a-time scanner behind `validUtf8`: `expected` pending
continuation bytes of the current code point. -/
def validUtf8From : Nat → List Nat → Bool
  | e, [] => decide (e = 0)
  | 0, b :: rest => !isCont b && validUtf8From (utf8SeqLen b - 1) rest
  | e + 1, b :: rest => isCont b && validUtf8From e rest

/-- Structural validity of a UTF-8 byte string: a sequence of units, each a
non-continuation lead byte followed by `utf8SeqLen - 1` continuation
bytes.  This is the property guaranteed for the byte strings the calling
environment hands to `BindParameters` (V8 produces well-formed UTF-8). -/
def validUtf8 (s : List Nat) : Bool := validUtf8From 0 s

/-- One engine parameter-binding call, with the values the code passes. -/
inductive BindCall where
  | setNull (paramIndex : Nat)
  | setBoolean (paramIndex : Nat) (v : Nat)
  | setInt32 (paramIndex : Nat) (v : Int)
  | setInt64 (paramIndex : Nat) (v : Int)
  | setDouble (paramIndex : Nat) (n : JsNum)
  | setString (paramIndex : Nat) (utf8 : List Nat)
  | setLob (paramIndex : Nat) (declaredSize : Nat)
  | setNclobData (chunk : List Nat)
  | setBlobData (chunk : List Nat)
  | setBinary (paramIndex : Nat) (bytes : List Nat)
deriving DecidableEq

/-- Oracle for the engine's bind-call return statuses. -/
structure BindEngine where
  rcOf : BindCall → Int

/-- Statement metadata queried during binding: `MimerParameterCount` and the
`MimerIsNclob`/`MimerIsBlob` classification of `MimerParameterType`. -/
structure StmtMeta where
  paramCount : Nat
  paramIsNclob : Nat → Bool
  paramIsBlob : Nat → Bool

/-- The inner `while` of helpers.cc lines 233-235: starting from candidate
chunk size `c`, decrement while `chunk > 0 && chunk < remaining &&
(data[offset + chunk] & 0xC0) == 0x80`. -/
def shrinkToBoundary (data : List Nat) (offset remaining : Nat) : Nat → Nat
  | 0 => 0
  | c + 1 =>
    if c + 1 < remaining ∧ isCont (byteAt data (offset + c + 1)) then
      shrinkToBoundary data offset remaining c
    else c + 1

/-- The NCLOB write loop of helpers.cc lines 229-240: write UTF-8 data in
chunks of at most `LOB_WRITE_CHUNK` bytes, shrinking each chunk to a
code-point boundary, while the engine reports success.  Returns the final
status and the chunks passed to `MimerSetNclobData8`, or `none` when the C
loop would not terminate (a shrunk chunk of 0 bytes that the engine keeps
accepting, impossible on well-formed UTF-8). -/
def nclobWriteLoop (eng : BindEngine) (data : List Nat) :
    Nat → Nat → Int → Option (Int × List (List Nat))
  | offset, remaining, rc =>
    if h : 0 < remaining ∧ 0 ≤ rc then
      let chunk := shrinkToBoundary data offset remaining (min remaining LOB_WRITE_CHUNK)
      if hc : chunk = 0 then
        let rcz := eng.rcOf (.setNclobData [])
        if rcz < 0 then some (rcz, [[]]) else none
      else
        let piece := (data.drop offset).take chunk
        let rcw := eng.rcOf (.setNclobData piece)
        match nclobWriteLoop eng data (offset + chunk) (remaining - chunk) rcw with
        | none => none
        | some (rcF, rest) => some (rcF, piece :: rest)
    else some (rc, [])
termination_by _ remaining _ => remaining
decreasing_by
  exact Nat.sub_lt h.1 (Nat.pos_of_ne_zero hc)

/-- The BLOB write loop of helpers.cc lines 254-259: raw bytes, fixed-size
chunks, no boundary shrinking. -/
def blobWriteLoop (eng : BindEngine) (data : List Nat) :
    Nat → Nat → Int → Int × List (List Nat)
  | offset, remaining, rc =>
    if h : 0 < remaining ∧ 0 ≤ rc then
      let chunk := min remaining LOB_WRITE_CHUNK
      let piece := (data.drop offset).take chunk
      let rcw := eng.rcOf (.setBlobData piece)
      let (rcF, rest) := blobWriteLoop eng data (offset + chunk) (remaining - chunk) rcw
      (rcF, piece :: rest)
    else (rc, [])
termination_by _ remaining _ => remaining
decreasing_by
  have hp : 0 < min remaining LOB_WRITE_CHUNK :=
    lt_min h.1 (by norm_num [LOB_WRITE_CHUNK])
  exact Nat.sub_lt h.1 hp

/-- Binding of one value (`BindParameters` per-element dispatch, helpers.cc
lines 203-269).  Returns the final status `rc` checked at lines 271-276 and
the engine calls made, or `none` for the non-terminating NCLOB edge case. -/
def bindValue (eng : BindEngine) (meta : StmtMeta) (paramIndex : Nat) (v : JsValue) :
    Option (Int × List BindCall) :=
  match v with
  | .null =>
    let c := BindCall.setNull paramIndex
    some (eng.rcOf c, [c])
  | .undefined =>
    let c := BindCall.setNull paramIndex
    some (eng.rcOf c, [c])
  | .boolean b =>
    let c := BindCall.setBoolean paramIndex (if b then 1 else 0)
    some (eng.rcOf c, [c])
  | .number n =>
    if n.truncEqB && n.isFiniteB then
      if n.geB (-2147483648) && n.leB 2147483647 then
        let c := BindCall.setInt32 paramIndex n.toIntCast
        some (eng.rcOf c, [c])
      else
        let c := BindCall.setInt64 paramIndex n.toIntCast
        some (eng.rcOf c, [c])
    else
      let c := BindCall.setDouble paramIndex n
      some (eng.rcOf c, [c])
  | .string s =>
    if meta.paramIsNclob paramIndex then
      let c0 := BindCall.setLob paramIndex (utf8CharCount s)
      let rc0 := eng.rcOf c0
      if rc0 = 0 then
        match nclobWriteLoop eng s 0 s.length rc0 with
        | none => none
        | some (rcF, chunks) => some (rcF, c0 :: chunks.map BindCall.setNclobData)
      else some (rc0, [c0])
    else
      let c := BindCall.setString paramIndex s
      some (eng.rcOf c, [c])
  | .buffer bytes =>
    if meta.paramIsBlob paramIndex then
      let c0 := BindCall.setLob paramIndex bytes.length
      let rc0 := eng.rcOf c0
      if rc0 = 0 then
        let (rcF, chunks) := blobWriteLoop eng bytes 0 bytes.length rc0
        some (rcF, c0 :: chunks.map BindCall.setBlobData)
      else some (rc0, [c0])
    else
      let c := BindCall.setBinary paramIndex bytes
      some (eng.rcOf c, [c])
  | .other s =>
    let c := BindCall.setString paramIndex s
    some (eng.rcOf c, [c])

/-- Outcome of `BindParameters` as observed by its callers. -/
inductive BindResult where
  | countMismatch (expected provided : Nat)
  | bindFailure (paramIndex : Nat) (rc : Int)
  | ok
deriving DecidableEq

/-- The per-value loop of `BindParameters` (helpers.cc lines 198-277),
fail-fast on the first negative status.  `i` is the 0-based position. -/
def bindLoop (eng : BindEngine) (meta : StmtMeta) :
    List JsValue → Nat → Option (BindResult × List BindCall)
  | [], _ => some (.ok, [])
  | v :: rest, i =>
    match bindValue eng meta (i + 1) v with
    | none => none
    | some (rc, calls) =>
      if rc < 0 then some (.bindFailure (i + 1) rc, calls)
      else
        match bindLoop eng meta rest (i + 1) with
        | none => none
        | some (res, moreCalls) => some (res, calls ++ moreCalls)

/-- The `BindParameters` (helpers.cc lines 186-278): the provided count is
checked against `MimerParameterCount` before any value is bound. -/
def bindParameters (eng : BindEngine) (meta : StmtMeta) (vals : List JsValue) :
    Option (BindResult × List BindCall) :=
  if vals.length ≠ meta.paramCount then
    some (.countMismatch meta.paramCount vals.length, [])
  else bindLoop eng meta vals 0

end NodeMimer

namespace NodeMimer

/-- The `MIMER_NATIVE_SMALLINT_NULLABLE` (engine interface header; the native
types come in even/odd pairs, the even code being the NULLABLE variant, as
documented at helpers.cc lines 149-151). -/
def MIMER_NATIVE_SMALLINT_NULLABLE : Int := 48

/-- The `MIMER_NATIVE_SMALLINT` (NOT-NULL partner, odd). -/
def MIMER_NATIVE_SMALLINT : Int := 49

/-- The `MIMER_NATIVE_INTEGER_NULLABLE`. -/
def MIMER_NATIVE_INTEGER_NULLABLE : Int := 50

/-- The `MIMER_NATIVE_INTEGER`. -/
def MIMER_NATIVE_INTEGER : Int := 51

/-- The `MIMER_NATIVE_BIGINT_NULLABLE`. -/
def MIMER_NATIVE_BIGINT_NULLABLE : Int := 52

/-- The `MIMER_NATIVE_BIGINT`. -/
def MIMER_NATIVE_BIGINT : Int := 53

/-- The `MIMER_NATIVE_REAL_NULLABLE`. -/
def MIMER_NATIVE_REAL_NULLABLE : Int := 54

/-- The `MIMER_NATIVE_REAL`. -/
def MIMER_NATIVE_REAL : Int := 55

/-- The `MIMER_NATIVE_DOUBLE_NULLABLE`. -/
def MIMER_NATIVE_DOUBLE_NULLABLE : Int := 56

/-- The `MIMER_NATIVE_DOUBLE`. -/
def MIMER_NATIVE_DOUBLE : Int := 57

/-- The five `_NULLABLE` native type codes tested at helpers.cc
lines 164-168. -/
def nativeNullableCodes : List Int :=
  [MIMER_NATIVE_SMALLINT_NULLABLE, MIMER_NATIVE_INTEGER_NULLABLE,
   MIMER_NATIVE_BIGINT_NULLABLE, MIMER_NATIVE_REAL_NULLABLE,
   MIMER_NATIVE_DOUBLE_NULLABLE]

/-- One element of the `fields` array built by `BuildFieldsArray`
(helpers.cc lines 137-180). -/
structure FieldMeta where
  name : String
  dataTypeCode : Int
  dataTypeName : String
  nullable : Bool
deriving DecidableEq

/-- The `BuildFieldsArray` (helpers.cc lines 137-180).  `colName` and `colType`
are the engine oracles `MimerColumnName8` / `MimerColumnType` (1-based
column index); `typeNameOf` stands for the pure `MimerTypeName` switch
applied to the absolute type code (its output never feeds back into
control flow here). -/
def buildFieldsArray (colName : Nat → String) (colType : Nat → Int)
    (typeNameOf : Int → String) (columnCount : Nat) : List FieldMeta :=
  (List.range columnCount).map fun i =>
    let col := i + 1
    let rawType := colType col
    let absType := if rawType < 0 then -rawType else rawType
    { name := colName col
      dataTypeCode := rawType
      dataTypeName := typeNameOf absType
      nullable :=
        if rawType < 0 then true
        else if absType = MIMER_NATIVE_SMALLINT_NULLABLE
             ∨ absType = MIMER_NATIVE_INTEGER_NULLABLE
             ∨ absType = MIMER_NATIVE_BIGINT_NULLABLE
             ∨ absType = MIMER_NATIVE_REAL_NULLABLE
             ∨ absType = MIMER_NATIVE_DOUBLE_NULLABLE then true
        else false }

/-- Classification of a column type code by the engine-header predicate
macros, in the exact precedence `FetchSingleRow` tests them (helpers.cc
lines 317-399): `MimerIsInt32`, `MimerIsInt64`, `MimerIsDouble`,
`MimerIsFloat`, `MimerIsBoolean`, `MimerIsBlob`, `MimerIsNclob`,
`MimerIsBinary`, else the string path. -/
inductive ColClass where
  | cInt32
  | cInt64
  | cDouble
  | cFloat
  | cBoolean
  | cBlob
  | cNclob
  | cBinary
  | cOther
deriving DecidableEq

/-- Engine responses for one column of one fetched row: the statuses and
output data of every engine call `FetchSingleRow` can make for that
column. -/
structure ColResp where
  isNullRc : Int := 0
  rc : Int := 0
  numVal : ℚ := 0
  boolVal : Int := 0
  lobSize : Nat := 0
  blobData : List Nat := []
  blobChunkRc : Nat → Int := fun _ => 0
  nclobReads : List (Int × String) := []
  binSizeProbe : Int := 0
  binRc : Int := 0
  binData : List Nat := []
  strSize1 : Int := 0
  strData : String := ""
  strRc2 : Int := 0

instance : Inhabited ColResp := ⟨{}⟩

/-- One cell of a marshalled row. -/
inductive CellValue where
  | nullV
  | num (q : ℚ)
  | boolean (b : Bool)
  | buffer (bytes : List Nat)
  | str (s : String)
deriving DecidableEq

/-- The BLOB read loop of helpers.cc lines 352-359: read `remaining` bytes
in chunks of at most `LOB_READ_CHUNK`, breaking on the first negative
status; returns the final status. -/
def blobReadLoop (chunkRc : Nat → Int) : Nat → Nat → Int → Int
  | k, remaining, rc =>
    if h : 0 < remaining then
      let chunk := min remaining LOB_READ_CHUNK
      let rcw := chunkRc k
      if rcw < 0 then rcw
      else blobReadLoop chunkRc (k + 1) (remaining - chunk) rcw
    else rc
termination_by _ remaining _ => remaining
decreasing_by
  exact Nat.sub_lt h (lt_min h (by norm_num [LOB_READ_CHUNK]))

/-- The NCLOB read do-while of helpers.cc lines 376-380: read, break on a
negative status without appending, append the chunk, repeat while the
status is positive.  The oracle is the list of successive reads; an
exhausted oracle reads as a completed empty chunk. -/
def nclobReadLoop : List (Int × String) → Int × String
  | [] => (0, "")
  | (rc, chunk) :: rest =>
    if rc < 0 then (rc, "")
    else if rc > 0 then
      let (rcF, s) := nclobReadLoop rest
      (rcF, chunk ++ s)
    else (0, chunk)

/-- Marshalling of one column of one row (`FetchSingleRow` loop body,
helpers.cc lines 306-417): `none` when the code sets no value for the
column on the produced row object. -/
def fetchColumn (cls : ColClass) (r : ColResp) : Option CellValue :=
  if r.isNullRc > 0 then some .nullV
  else
    match cls with
    | .cInt32 => if r.rc = 0 then some (.num r.numVal) else none
    | .cInt64 => if r.rc = 0 then some (.num r.numVal) else none
    | .cDouble => if r.rc = 0 then some (.num r.numVal) else none
    | .cFloat => if r.rc = 0 then some (.num r.numVal) else none
    | .cBoolean => some (.boolean (r.boolVal > 0))
    | .cBlob =>
      if r.rc = 0 ∧ r.lobSize > 0 then
        if 0 ≤ blobReadLoop r.blobChunkRc 0 r.lobSize 0 then some (.buffer r.blobData)
        else none
      else if r.rc = 0 then some (.buffer [])
      else none
    | .cNclob =>
      if r.rc = 0 ∧ r.lobSize > 0 then
        let (rcF, s) := nclobReadLoop r.nclobReads
        if 0 ≤ rcF then some (.str s) else none
      else if r.rc = 0 then some (.str "")
      else none
    | .cBinary =>
      if r.binSizeProbe > 0 then
        if 0 ≤ r.binRc then some (.buffer r.binData) else none
      else some (.buffer [])
    | .cOther =>
      if 0 < r.strSize1 ∧ r.strSize1 < 256 then some (.str r.strData)
      else if 256 ≤ r.strSize1 then
        if 0 ≤ r.strRc2 then some (.str r.strData) else none
      else some (.str "")

/-- The `FetchSingleRow` (helpers.cc lines 300-421): one row object; a column
appears on the row only when its branch reached a `row.Set`. -/
def fetchSingleRow (columnCount : Nat) (names : List String)
    (classes : List ColClass) (resps : List ColResp) :
    List (String × CellValue) :=
  (List.range columnCount).filterMap fun i =>
    match fetchColumn (classes.getD i .cOther) (resps.getD i default) with
    | some v => some (names.getD i "", v)
    | none => none

/-- The `CacheColumnMetadata` (helpers.cc lines 283-294), names component. -/
def cacheColumnNames (colName : Nat → String) (columnCount : Nat) : List String :=
  (List.range columnCount).map fun i => colName (i + 1)

/-- The `CacheColumnMetadata` (helpers.cc lines 283-294), type-code component. -/
def cacheColumnTypes (colType : Nat → Int) (columnCount : Nat) : List Int :=
  (List.range columnCount).map fun i => colType (i + 1)

/-- The `FetchResults` (helpers.cc lines 426-440): cache the metadata once and
marshal one row per successful `MimerFetch`; `rowResps` is the oracle's
list of successful fetches (the while loop stops at the first non-success
status), `classify` the engine-header type predicates. -/
def fetchResults (colName : Nat → String) (colType : Nat → Int)
    (classify : Int → ColClass) (rowResps : List (List ColResp))
    (columnCount : Nat) : List (List (String × CellValue)) :=
  let names := cacheColumnNames colName columnCount
  let classes := (cacheColumnTypes colType columnCount).map classify
  rowResps.map fun resps => fetchSingleRow columnCount names classes resps

end NodeMimer

namespace NodeMimer

/-- A structured error thrown as a JavaScript exception by
`ThrowMimerError` / `CheckError`: the numeric engine status and the name
of the failing operation (helpers.cc lines 54-67). -/
structure ThrownError where
  mimerCode : Int
  operation : String
deriving DecidableEq

/-- State of one `MimerStmtWrapper` (statement.h / statement.cc):
`handle = none` models `stmt_ == MIMERNULLHANDLE` (and `MimerEndStatement`
nulls the handle it releases), `endCount` counts the `MimerEndStatement`
calls made on behalf of this wrapper. -/
structure StmtState where
  handle : Option Nat
  columnCount : Nat
  closed : Bool
  parent : Option Nat
  endCount : Nat
deriving DecidableEq

/-- State of one `MimerResultSetWrapper` (resultset.h / resultset.cc),
with the column metadata cached at construction;  `endCount` /
`closeCursorCount` count `MimerEndStatement` / `MimerCloseCursor` calls. -/
structure RsState where
  handle : Option Nat
  columnCount : Nat
  colNames : List String
  colClasses : List ColClass
  closed : Bool
  exhausted : Bool
  parent : Option Nat
  endCount : Nat
  closeCursorCount : Nat
deriving DecidableEq

/-- The `MimerStmtWrapper::Invalidate` (statement.cc lines 114-120): end the
handle only when `!closed_ && stmt_ != MIMERNULLHANDLE`, then set the
closed flag and drop the parent back-reference. -/
def stmtInvalidate (s : StmtState) : StmtState :=
  let s :=
    if ¬s.closed ∧ s.handle.isSome then
      { s with handle := none, endCount := s.endCount + 1 }
    else s
  { s with closed := true, parent := none }

/-- The `MimerStmtWrapper::CloseInternal` (statement.cc lines 126-135): like
`Invalidate`, but also unregisters from the parent connection (modelled
entity-locally as clearing the back-reference). -/
def stmtCloseInternal (s : StmtState) : StmtState :=
  let s :=
    if ¬s.closed ∧ s.handle.isSome then
      { s with handle := none, endCount := s.endCount + 1 }
    else s
  { s with closed := true, parent := none }

/-- The `MimerStmtWrapper::~MimerStmtWrapper` (statement.cc lines 94-103): ends
the handle and unregisters only when still open; does not touch the
closed flag. -/
def stmtDtor (s : StmtState) : StmtState :=
  if ¬s.closed ∧ s.handle.isSome then
    { s with handle := none, endCount := s.endCount + 1, parent := none }
  else s

/-- The `MimerResultSetWrapper::Invalidate` (resultset.cc lines 94-101):
close the cursor and end the statement handle only when still open, then
mark closed and drop the back-reference. -/
def rsInvalidate (rs : RsState) : RsState :=
  let rs :=
    if ¬rs.closed ∧ rs.handle.isSome then
      { rs with handle := none, endCount := rs.endCount + 1,
                closeCursorCount := rs.closeCursorCount + 1 }
    else rs
  { rs with closed := true, parent := none }

/-- The `MimerResultSetWrapper::CloseInternal` (resultset.cc lines 106-116):
like `Invalidate` plus unregistration from the parent. -/
def rsCloseInternal (rs : RsState) : RsState :=
  let rs :=
    if ¬rs.closed ∧ rs.handle.isSome then
      { rs with handle := none, endCount := rs.endCount + 1,
                closeCursorCount := rs.closeCursorCount + 1 }
    else rs
  { rs with closed := true, parent := none }

/-- The `MimerResultSetWrapper::FetchNext` (resultset.cc lines 121-136).
`frc` is the `MimerFetch` status and `resps` the per-column engine
responses for the fetched row. -/
def rsFetchNext (frc : Int) (resps : List ColResp) (rs : RsState) :
    RsState × Option (List (String × CellValue)) :=
  if rs.closed || rs.exhausted then (rs, none)
  else if frc = MIMER_SUCCESS then
    (rs, some (fetchSingleRow rs.columnCount rs.colNames rs.colClasses resps))
  else ({ rs with exhausted := true }, none)

/-- The `MimerResultSetWrapper::GetFields` (resultset.cc lines 141-149): empty
array when closed, a fresh `BuildFieldsArray` otherwise. -/
def rsGetFields (colName : Nat → String) (colType : Nat → Int)
    (typeNameOf : Int → String) (rs : RsState) : List FieldMeta :=
  if rs.closed then []
  else buildFieldsArray colName colType typeNameOf rs.columnCount

/-- The entity-lifecycle entry points of a wrapper. -/
inductive EntityOp where
  | opClose
  | opInvalidate
  | opDtor
deriving DecidableEq

/-- Apply one lifecycle entry point to a statement wrapper
(`Close` runs `CloseInternal`, statement.cc lines 197-201). -/
def stmtApplyOp : EntityOp → StmtState → StmtState
  | .opClose, s => stmtCloseInternal s
  | .opInvalidate, s => stmtInvalidate s
  | .opDtor, s => stmtDtor s

/-- Run a sequence of lifecycle entry points on a statement wrapper. -/
def stmtRunOps (ops : List EntityOp) (s : StmtState) : StmtState :=
  ops.foldl (fun st op => stmtApplyOp op st) s

/-- Apply one lifecycle entry point to a result-set wrapper (`Close` runs
`CloseInternal`, and the destructor also runs `CloseInternal`,
resultset.cc lines 83-85 and 154-157). -/
def rsApplyOp : EntityOp → RsState → RsState
  | .opClose, rs => rsCloseInternal rs
  | .opInvalidate, rs => rsInvalidate rs
  | .opDtor, rs => rsCloseInternal rs

/-- Run a sequence of lifecycle entry points on a result-set wrapper. -/
def rsRunOps (ops : List EntityOp) (rs : RsState) : RsState :=
  ops.foldl (fun st op => rsApplyOp op st) rs

/-- Operations a caller can perform on a live result set between fetches. -/
inductive RsOp where
  | opFetch (frc : Int) (resps : List ColResp)
  | opClose
  | opInvalidate
  | opGetFields

/-- Apply one caller operation to a result set (`GetFields` reads state
only). -/
def rsApplyCallerOp : RsOp → RsState → RsState
  | .opFetch frc resps, rs => (rsFetchNext frc resps rs).1
  | .opClose, rs => rsCloseInternal rs
  | .opInvalidate, rs => rsInvalidate rs
  | .opGetFields, rs => rs

/-- Run a sequence of caller operations on a result set. -/
def rsRunCallerOps (ops : List RsOp) (rs : RsState) : RsState :=
  ops.foldl (fun st op => rsApplyCallerOp op st) rs

end NodeMimer

namespace NodeMimer

/-- State of one `MimerConnection` (connection.h lines 52-59): session
handle (`none` models null / ended), connected flag, and the registries of
open statement / result-set wrappers, with the wrappers' states indexed by
identity. -/
structure ConnState where
  session : Option Nat
  connected : Bool
  openStatements : List Nat
  openResultSets : List Nat
  stmts : Nat → StmtState
  rss : Nat → RsState
  sessionEndCount : Nat

/-- Observable engine-facing events of `MimerConnection::Close`, in the
order they happen. -/
inductive ConnEvent where
  | evInvalidateRs (id : Nat)
  | evInvalidateStmt (id : Nat)
  | evEndSession
deriving DecidableEq

/-- Result of `MimerConnection::Close`: the new connection state, the JS
return value, the pending JS exception if any, and the engine-facing
events in order. -/
structure CloseOutcome where
  state : ConnState
  ret : Bool
  thrown : Option ThrownError
  events : List ConnEvent

/-- The `MimerConnection::Close` (connection.cc lines 138-168), with
`endSessionRc` the status of `MimerEndSession`: no-op success when not
connected; otherwise invalidate all registered result sets, then all
registered statements, clear both registries, and end the session handle,
routing a negative status through `CheckError` (which throws a
`ThrowMimerError` JS exception) while still returning `true`. -/
def connClose (endSessionRc : Int) (c : ConnState) : CloseOutcome :=
  if ¬c.connected then { state := c, ret := true, thrown := none, events := [] }
  else
    let rssNew := fun id => if id ∈ c.openResultSets then rsInvalidate (c.rss id) else c.rss id
    let stmtsNew := fun id => if id ∈ c.openStatements then stmtInvalidate (c.stmts id) else c.stmts id
    let evs := c.openResultSets.map ConnEvent.evInvalidateRs
      ++ c.openStatements.map ConnEvent.evInvalidateStmt
    let cMid := { c with
      rss := rssNew
      stmts := stmtsNew
      openResultSets := []
      openStatements := [] }
    if cMid.session.isSome then
      { state := { cMid with
          session := none
          connected := false
          sessionEndCount := cMid.sessionEndCount + 1 }
        ret := true
        thrown := if endSessionRc < 0 then
            some { mimerCode := endSessionRc, operation := "MimerEndSession" }
          else none
        events := evs ++ [ConnEvent.evEndSession] }
    else { state := cMid, ret := true, thrown := none, events := evs }

/-- Engine oracle for one `MimerStmtWrapper::Execute` call. -/
structure StmtEngine where
  meta : StmtMeta
  bindEngine : BindEngine
  colName : Nat → String
  colType : Nat → Int
  typeNameOf : Int → String
  classify : Int → ColClass
  openCursorRc : Int
  executeRc : Int
  rowResps : List (List ColResp)

/-- Caller-observable outcome of `MimerStmtWrapper::Execute`. -/
inductive StmtExecResult where
  | thrownStatementClosed
  | thrownCountMismatch (expected provided : Nat)
  | thrownBind (paramIndex : Nat) (rc : Int)
  | thrownOp (operation : String) (rc : Int)
  | queryResult (fields : List FieldMeta) (rows : List (List (String × CellValue)))
      (rowCount : Nat)
  | dmlResult (rowCount : Int)
deriving DecidableEq

/-- The `MimerStmtWrapper::Execute` after a successful (or skipped) bind
(statement.cc lines 161-191): either the cursor/fetch path (positive
cached column count) or direct `MimerExecute`.  The statement state
itself is not mutated. -/
def stmtExecuteBody (eng : StmtEngine) (s : StmtState) : StmtExecResult :=
  if 0 < s.columnCount then
    let fields := buildFieldsArray eng.colName eng.colType eng.typeNameOf s.columnCount
    if eng.openCursorRc < 0 then .thrownOp "MimerOpenCursor" eng.openCursorRc
    else
      let rows := fetchResults eng.colName eng.colType eng.classify eng.rowResps
        s.columnCount
      .queryResult fields rows rows.length
  else
    if eng.executeRc < 0 then .thrownOp "MimerExecute" eng.executeRc
    else .dmlResult eng.executeRc

/-- The `MimerStmtWrapper::Execute`, entry and bind phase (statement.cc
lines 142-159). -/
def stmtExecute (eng : StmtEngine) (s : StmtState) (params : List JsValue) :
    Option StmtExecResult :=
  if s.closed then some .thrownStatementClosed
  else
    match (if 0 < params.length then bindParameters eng.bindEngine eng.meta params
           else some (.ok, [])) with
    | none => none
    | some (.countMismatch e p, _) => some (.thrownCountMismatch e p)
    | some (.bindFailure i rc, _) => some (.thrownBind i rc)
    | some (.ok, _) => some (stmtExecuteBody eng s)

/-- Engine oracle for one `MimerConnection::Execute` call. -/
structure ExecEngine where
  prepareRc : Int
  directRc : Int
  meta : StmtMeta
  bindEngine : BindEngine
  columnCount : Int
  colName : Nat → String
  colType : Nat → Int
  typeNameOf : Int → String
  classify : Int → ColClass
  openCursorRc : Int
  executeRc : Int
  rowResps : List (List ColResp)

/-- Caller-observable outcome of `MimerConnection::Execute`. -/
inductive ExecResult where
  | thrownNotConnected
  | thrownCountMismatch (expected provided : Nat)
  | thrownBind (paramIndex : Nat) (rc : Int)
  | thrownOp (operation : String) (rc : Int)
  | ddlResult (rowCount : Nat)
  | queryResult (fields : List FieldMeta) (rows : List (List (String × CellValue)))
      (rowCount : Nat)
  | dmlResult (rowCount : Int)
deriving DecidableEq

/-- The `MimerConnection::Execute` after a successful (or skipped) bind
(connection.cc lines 228-263): the result-shape decision by
`MimerColumnCount`, the cursor/fetch path, or the direct `MimerExecute`
path. -/
def connExecuteBody (eng : ExecEngine) : ExecResult :=
  if 0 < eng.columnCount then
    let cc := eng.columnCount.toNat
    let fields := buildFieldsArray eng.colName eng.colType eng.typeNameOf cc
    if eng.openCursorRc < 0 then .thrownOp "MimerOpenCursor" eng.openCursorRc
    else
      let rows := fetchResults eng.colName eng.colType eng.classify eng.rowResps cc
      .queryResult fields rows rows.length
  else
    if eng.executeRc < 0 then .thrownOp "MimerExecute" eng.executeRc
    else .dmlResult eng.executeRc

/-- The `MimerConnection::Execute` (connection.cc lines 175-264).  The second
component counts the `MimerEndStatement` calls made on the statement
handle prepared by this call.  Binding happens only for a non-empty
params array (`hasParams`, line 193); the cannot-be-prepared status
triggers the one-shot `MimerExecuteStatement8` fallback.  `none` models
the non-terminating NCLOB bind edge case. -/
def connExecute (eng : ExecEngine) (connected : Bool) (params : List JsValue) :
    Option (ExecResult × Nat) :=
  if ¬connected then some (.thrownNotConnected, 0)
  else if eng.prepareRc = MIMER_STATEMENT_CANNOT_BE_PREPARED then
    if eng.directRc < 0 then some (.thrownOp "MimerExecuteStatement8" eng.directRc, 0)
    else some (.ddlResult 0, 0)
  else if eng.prepareRc < 0 then some (.thrownOp "MimerBeginStatement8" eng.prepareRc, 0)
  else
    match (if 0 < params.length then bindParameters eng.bindEngine eng.meta params
           else some (.ok, [])) with
    | none => none
    | some (.countMismatch e p, _) => some (.thrownCountMismatch e p, 1)
    | some (.bindFailure i rc, _) => some (.thrownBind i rc, 1)
    | some (.ok, _) => some (connExecuteBody eng, 1)

end NodeMimer

namespace NodeMimer

/-- A live statement wrapper used as a concrete test fixture. -/
def exampleStmt : StmtState :=
  { handle := some 11, columnCount := 0, closed := false, parent := some 0, endCount := 0 }

/-- A live result-set wrapper used as a concrete test fixture. -/
def exampleRs : RsState :=
  { handle := some 12, columnCount := 1, colNames := ["A"], colClasses := [.cOther],
    closed := false, exhausted := false, parent := some 0, endCount := 0,
    closeCursorCount := 0 }

/-- A connected connection with one registered statement (id 1) and one
registered result set (id 2), used as a concrete test fixture. -/
def exampleConn : ConnState :=
  { session := some 7, connected := true, openStatements := [1], openResultSets := [2],
    stmts := fun _ => exampleStmt, rss := fun _ => exampleRs, sessionEndCount := 0 }

/-- A bind-call oracle on which every engine call succeeds. -/
def okBindEngine : BindEngine := ⟨fun _ => 0⟩

/-- Statement metadata declaring exactly one non-LOB parameter. -/
def exampleMeta1 : StmtMeta :=
  { paramCount := 1, paramIsNclob := fun _ => false, paramIsBlob := fun _ => false }

/-- C6: in the field-metadata array the derived nullable flag is true iff
the raw engine type code is negative or equals one of the native types'
distinct NULLABLE codes, and false for every other non-negative code;
the NULLABLE codes are the even members of the native even/odd pairs. -/
theorem nullable_flag_characterization :
    (∀ colName colType typeNameOf count f,
        f ∈ buildFieldsArray colName colType typeNameOf count →
        (f.nullable = true ↔ f.dataTypeCode < 0 ∨ f.dataTypeCode ∈ nativeNullableCodes)) ∧
    (∀ code ∈ nativeNullableCodes, code % 2 = 0 ∧ code + 1 ∉ nativeNullableCodes) := by
  constructor
  · intro colName colType typeNameOf count f hf
    simp only [buildFieldsArray, List.mem_map, List.mem_range] at hf
    obtain ⟨i, -, rfl⟩ := hf
    simp only
    rcases lt_or_le (colType (i + 1)) 0 with hneg | hpos
    · simp [hneg]
    · have habs : ¬colType (i + 1) < 0 := not_lt.mpr hpos
      simp only [habs, if_false, not_lt.mpr hpos]
      by_cases hmem :
          colType (i + 1) = MIMER_NATIVE_SMALLINT_NULLABLE
          ∨ colType (i + 1) = MIMER_NATIVE_INTEGER_NULLABLE
          ∨ colType (i + 1) = MIMER_NATIVE_BIGINT_NULLABLE
          ∨ colType (i + 1) = MIMER_NATIVE_REAL_NULLABLE
          ∨ colType (i + 1) = MIMER_NATIVE_DOUBLE_NULLABLE
      · simp [hmem, nativeNullableCodes]
      · simp only [hmem, if_false]
        constructor
        · intro h
          exact absurd h (by decide)
        · intro h
          rcases h with h | h
          · exact h.elim
          · exact absurd (by simpa [nativeNullableCodes] using h) hmem
  · intro code hc
    fin_cases hc <;> decide

/-- The claim's numeric-parameter dispatch rule, stated in the spec's
terms: a finite integral value within the 32-bit signed range binds as a
32-bit integer, a finite integral value outside it binds as a 64-bit
integer, everything else (fractional or non-finite) binds as a double. -/
def specNumberBindCall (paramIndex : Nat) (n : JsNum) : BindCall :=
  if n.isFiniteB && n.truncEqB && n.geB (-2147483648) && n.leB 2147483647 then
    .setInt32 paramIndex n.toIntCast
  else if n.isFiniteB && n.truncEqB then
    .setInt64 paramIndex n.toIntCast
  else
    .setDouble paramIndex n

/-- C7: binding a numeric value always makes exactly the engine call the
spec's dispatch rule prescribes (32-bit for finite integral in-range,
64-bit for finite integral out-of-range, double otherwise). -/
theorem number_bind_dispatch (eng : BindEngine) (meta : StmtMeta)
    (paramIndex : Nat) (n : JsNum) :
    bindValue eng meta paramIndex (.number n) =
      some (eng.rcOf (specNumberBindCall paramIndex n),
            [specNumberBindCall paramIndex n]) := by
  cases n with
  | nan => rfl
  | posInf => rfl
  | negInf => rfl
  | finite q =>
    simp only [bindValue, specNumberBindCall, JsNum.isFiniteB, JsNum.truncEqB,
      JsNum.geB, JsNum.leB, Bool.and_true, Bool.true_and, Bool.and_self]
    by_cases hd : q.den = 1 <;>
      by_cases hlo : (-2147483648 : ℚ) ≤ q <;>
        by_cases hhi : q ≤ (2147483647 : ℚ) <;>
          simp [hd, hlo, hhi]

/-- C2 counterexample: on the concrete connected fixture, a negative
`MimerEndSession` status makes `Close` throw a structured JS exception
(via `CheckError`), contradicting "never raises an error". -/
theorem close_end_session_error_thrown_cex :
    (connClose (-5) exampleConn).thrown =
      some { mimerCode := -5, operation := "MimerEndSession" } ∧
    (connClose (-5) exampleConn).ret = true := by
  constructor <;> rfl

/-- C2 (amended): for a connected session with a live handle, `close`
always returns `true` and marks the connection disconnected, but a
negative end-session status is raised as a thrown structured error (not a
silent diagnostic); a non-negative status raises nothing. -/
theorem close_returns_true_and_throws_on_end_error (c : ConnState) (rc : Int)
    (hc : c.connected = true) (hs : c.session.isSome) :
    (connClose rc c).ret = true ∧
    (connClose rc c).state.connected = false ∧
    (connClose rc c).thrown =
      (if rc < 0 then some { mimerCode := rc, operation := "MimerEndSession" }
       else none) := by
  simp [connClose, hc, hs]

/-- Witness for the amended C2 theorem at the concrete fixture. -/
theorem close_returns_true_and_throws_on_end_error_witness :
    (connClose (-5) exampleConn).ret = true ∧
    (connClose (-5) exampleConn).state.connected = false ∧
    (connClose (-5) exampleConn).thrown =
      (if (-5 : Int) < 0 then some { mimerCode := -5, operation := "MimerEndSession" }
       else none) :=
  close_returns_true_and_throws_on_end_error exampleConn (-5) (by rfl) (by rfl)

end NodeMimer

namespace NodeMimer

/-- The per-value bind loop can only report `ok` or `bindFailure`, never a
count mismatch. -/
theorem bindLoop_no_countMismatch (eng : BindEngine) (meta : StmtMeta) :
    ∀ (vals : List JsValue) (i : Nat) (res : BindResult) (calls : List BindCall),
      bindLoop eng meta vals i = some (res, calls) →
      ∀ e p, res ≠ .countMismatch e p := by
  intro vals
  induction vals with
  | nil =>
    intro i res calls h e p
    simp only [bindLoop, Option.some.injEq, Prod.mk.injEq] at h
    obtain ⟨h1, -⟩ := h
    subst h1
    simp
  | cons v rest ih =>
    intro i res calls h e p
    simp only [bindLoop] at h
    rcases hv : bindValue eng meta (i + 1) v with - | ⟨rc, vcalls⟩ <;> rw [hv] at h
    · exact absurd h (by simp)
    · by_cases hrc : rc < 0
      · simp only [hrc, if_true, Option.some.injEq, Prod.mk.injEq] at h
        obtain ⟨h1, -⟩ := h
        subst h1
        simp
      · simp only [hrc, if_false] at h
        rcases hr : bindLoop eng meta rest (i + 1) with - | ⟨res2, calls2⟩ <;> rw [hr] at h
        · exact absurd h (by simp)
        · simp only [Option.some.injEq, Prod.mk.injEq] at h
          obtain ⟨h1, -⟩ := h
          subst h1
          exact ih (i + 1) res2 calls2 hr e p

/-- The count check of `BindParameters` fires, with no engine call made,
for every provided count different from the declared count. -/
theorem bindParameters_length_ne (eng : BindEngine) (meta : StmtMeta)
    (vals : List JsValue) (hne : vals.length ≠ meta.paramCount) :
    bindParameters eng meta vals =
      some (.countMismatch meta.paramCount vals.length, []) := by
  simp [bindParameters, hne]

/-- A direct-execution engine fixture: one declared parameter, a DML
statement (no result columns) whose `MimerExecute` reports 5 affected
rows. -/
def exampleExecEngine : ExecEngine :=
  { prepareRc := 0, directRc := 0, meta := exampleMeta1, bindEngine := okBindEngine,
    columnCount := 0, colName := fun _ => "", colType := fun _ => 0,
    typeNameOf := fun _ => "", classify := fun _ => .cOther,
    openCursorRc := 0, executeRc := 5, rowResps := [] }

/-- C3 counterexample: executing with an empty value sequence (L = 0)
against a statement declaring K = 1 parameter does not fail with the
count-mismatch error — the `hasParams` guard skips binding entirely and
the statement is executed. -/
theorem execute_empty_params_skips_count_check_cex :
    exampleExecEngine.meta.paramCount = 1 ∧
    connExecute exampleExecEngine true [] = some (.dmlResult 5, 1) := by
  constructor <;> rfl

/-- C3 (amended): `BindParameters` itself rejects every provided count
L ≠ K (including L = 0) with the count-mismatch error before making any
engine call, and when L = K the count check never fails (only per-value
bind errors can occur); but the execute entry point skips binding for an
empty provided sequence, so executing with L = 0 never reports the count
mismatch even when K > 0. -/
theorem param_count_mismatch_amended :
    (∀ eng meta (vals : List JsValue), vals.length ≠ meta.paramCount →
        bindParameters eng meta vals =
          some (.countMismatch meta.paramCount vals.length, [])) ∧
    (∀ eng meta (vals : List JsValue) res calls, vals.length = meta.paramCount →
        bindParameters eng meta vals = some (res, calls) →
        ∀ e p, res ≠ .countMismatch e p) ∧
    (∀ (eng : ExecEngine) (params : List JsValue), params ≠ [] →
        params.length ≠ eng.meta.paramCount →
        0 ≤ eng.prepareRc → eng.prepareRc ≠ MIMER_STATEMENT_CANNOT_BE_PREPARED →
        connExecute eng true params =
          some (.thrownCountMismatch eng.meta.paramCount params.length, 1)) ∧
    (∀ eng : ExecEngine, ∃ out, connExecute eng true [] = some out ∧
        ∀ e p, out.1 ≠ ExecResult.thrownCountMismatch e p) := by
  refine ⟨?_, ?_, ?_, ?_⟩
  · exact bindParameters_length_ne
  · intro eng meta vals res calls heq hbp e p
    unfold bindParameters at hbp
    rw [heq, if_neg (fun hcon => hcon rfl)] at hbp
    exact bindLoop_no_countMismatch eng meta vals 0 res calls hbp e p
  · intro eng params hne hlen hge hcbp
    have hpos : 0 < params.length := List.length_pos.mpr hne
    have hb := bindParameters_length_ne eng.bindEngine eng.meta params hlen
    unfold connExecute
    rw [if_neg (by decide), if_neg hcbp, if_neg (not_lt.mpr hge), if_pos hpos, hb]
  · intro eng
    unfold connExecute
    rw [if_neg (by decide)]
    by_cases h1 : eng.prepareRc = MIMER_STATEMENT_CANNOT_BE_PREPARED
    · rw [if_pos h1]
      by_cases h2 : eng.directRc < 0
      · rw [if_pos h2]; exact ⟨_, rfl, by simp⟩
      · rw [if_neg h2]; exact ⟨_, rfl, by simp⟩
    · rw [if_neg h1]
      by_cases h2 : eng.prepareRc < 0
      · rw [if_pos h2]; exact ⟨_, rfl, by simp⟩
      · rw [if_neg h2, if_neg (show ¬0 < ([] : List JsValue).length by decide)]
        refine ⟨_, rfl, ?_⟩
        intro e p
        unfold connExecuteBody
        split_ifs <;> simp

/-- Witness for the amended C3 theorem at concrete inputs. -/
theorem param_count_mismatch_amended_witness :
    bindParameters okBindEngine exampleMeta1 [] =
      some (.countMismatch 1 0, []) ∧
    connExecute exampleExecEngine true [JsValue.null, JsValue.null] =
      some (.thrownCountMismatch 1 2, 1) := by
  constructor
  · exact param_count_mismatch_amended.1 okBindEngine exampleMeta1 [] (by decide)
  · exact param_count_mismatch_amended.2.2.1 exampleExecEngine [JsValue.null, JsValue.null]
      (by decide) (by decide) (by decide) (by decide)

end NodeMimer

namespace NodeMimer

/-- C9: whenever `Execute` successfully prepares a statement handle (the
prepare status is non-negative and not the cannot-be-prepared sentinel),
exactly one `MimerEndStatement` is issued before the call returns, on
every exit path — bind failure, cursor-open failure, execute failure and
success alike. -/
theorem execute_always_releases_statement (eng : ExecEngine) (params : List JsValue)
    (h1 : 0 ≤ eng.prepareRc) (h2 : eng.prepareRc ≠ MIMER_STATEMENT_CANNOT_BE_PREPARED) :
    ∀ res n, connExecute eng true params = some (res, n) → n = 1 := by
  intro res n h
  unfold connExecute at h
  rw [if_neg (by decide), if_neg h2, if_neg (not_lt.mpr h1)] at h
  rcases hb : (if 0 < params.length then bindParameters eng.bindEngine eng.meta params
               else some (.ok, [])) with - | ⟨br, calls⟩ <;> rw [hb] at h
  · exact absurd h (by simp)
  · cases br <;> simp only [Option.some.injEq, Prod.mk.injEq] at h <;> omega

/-- Witness for the C9 theorem: the concrete DML engine fixture takes the
success path and releases the handle exactly once. -/
theorem execute_always_releases_statement_witness :
    connExecute exampleExecEngine true [] = some (.dmlResult 5, 1) ∧ (1 : Nat) = 1 :=
  ⟨by rfl,
   execute_always_releases_statement exampleExecEngine [] (by decide) (by decide)
     (.dmlResult 5) 1 (by rfl)⟩

/-- One-column engine fixture whose single fetched row's int32 getter
reports a negative status. -/
def exampleFailRowEngine : ExecEngine :=
  { prepareRc := 0, directRc := 0,
    meta := { paramCount := 0, paramIsNclob := fun _ => false,
              paramIsBlob := fun _ => false },
    bindEngine := okBindEngine,
    columnCount := 1, colName := fun _ => "A",
    colType := fun _ => MIMER_NATIVE_INTEGER_NULLABLE,
    typeNameOf := fun _ => "INTEGER", classify := fun _ => .cInt32,
    openCursorRc := 0, executeRc := 0,
    rowResps := [[{ isNullRc := 0, rc := -1 }]] }

/-- C4 counterexample: a negative status from the per-column int32 getter
does not abort the enclosing fetch — the row is still produced, with the
column silently missing, and the whole query succeeds with no error. -/
theorem fetch_getter_error_drops_column_cex :
    fetchSingleRow 1 ["A"] [ColClass.cInt32] [{ isNullRc := 0, rc := -1 }] = [] ∧
    connExecute exampleFailRowEngine true [] =
      some (.queryResult
        [{ name := "A", dataTypeCode := MIMER_NATIVE_INTEGER_NULLABLE,
           dataTypeName := "INTEGER", nullable := true }]
        [[]] 1, 1) := by
  constructor <;> rfl

/-- C4 (amended): a negative status from a per-column typed getter during
a row fetch is not checked as an error: the numeric getters simply omit
the column from the produced row, the boolean getter coerces the status
to a value, and the enclosing operation still completes with a produced
row set and no structured error. -/
theorem fetch_getter_error_no_abort :
    (∀ cls r, (cls = ColClass.cInt32 ∨ cls = ColClass.cInt64 ∨
        cls = ColClass.cDouble ∨ cls = ColClass.cFloat) →
        r.isNullRc ≤ 0 → r.rc < 0 → fetchColumn cls r = none) ∧
    (∀ r : ColResp, r.isNullRc ≤ 0 →
        fetchColumn ColClass.cBoolean r = some (.boolean (r.boolVal > 0))) ∧
    (∀ eng : ExecEngine, 0 ≤ eng.prepareRc →
        eng.prepareRc ≠ MIMER_STATEMENT_CANNOT_BE_PREPARED →
        0 < eng.columnCount → 0 ≤ eng.openCursorRc →
        ∃ fields rows,
          connExecute eng true [] = some (.queryResult fields rows rows.length, 1)) := by
  refine ⟨?_, ?_, ?_⟩
  · intro cls r hcls hnull hrc
    have hn : ¬r.isNullRc > 0 := not_lt.mpr hnull
    have hz : ¬r.rc = 0 := by omega
    rcases hcls with rfl | rfl | rfl | rfl <;>
      simp [fetchColumn, hn, hz]
  · intro r hnull
    simp [fetchColumn, not_lt.mpr hnull]
  · intro eng h1 h2 h3 h4
    unfold connExecute
    rw [if_neg (by decide), if_neg h2, if_neg (not_lt.mpr h1),
      if_neg (show ¬0 < ([] : List JsValue).length by decide)]
    unfold connExecuteBody
    rw [if_pos h3, if_neg (not_lt.mpr h4)]
    exact ⟨_, _, rfl⟩

/-- Witness for the amended C4 theorem at concrete inputs. -/
theorem fetch_getter_error_no_abort_witness :
    fetchColumn ColClass.cInt32 { isNullRc := 0, rc := -1 } = none ∧
    (∃ fields rows,
      connExecute exampleFailRowEngine true [] =
        some (.queryResult fields rows rows.length, 1)) :=
  ⟨fetch_getter_error_no_abort.1 ColClass.cInt32 { isNullRc := 0, rc := -1 }
     (Or.inl rfl) (by decide) (by decide),
   fetch_getter_error_no_abort.2.2 exampleFailRowEngine (by decide) (by decide)
     (by decide) (by decide)⟩

end NodeMimer

namespace NodeMimer

/-- At most this many further `MimerEndStatement` calls can ever be made
for a statement wrapper in the given state: one while it is open with a
live handle, none once closed or nulled. -/
def stmtReleaseBudget (s : StmtState) : Nat :=
  if ¬s.closed ∧ s.handle.isSome then 1 else 0

/-- Result-set analogue of `stmtReleaseBudget` (one cursor close plus one
statement release while open). -/
def rsReleaseBudget (rs : RsState) : Nat :=
  if ¬rs.closed ∧ rs.handle.isSome then 1 else 0

/-- A closed statement wrapper with no back-reference is a fixed point of
every lifecycle entry point. -/
theorem stmtApplyOp_absorbed (op : EntityOp) (s : StmtState)
    (hc : s.closed = true) (hp : s.parent = none) : stmtApplyOp op s = s := by
  obtain ⟨h, cc, cl, p, e⟩ := s
  simp only at hc hp
  subst hc hp
  cases op <;> simp [stmtApplyOp, stmtCloseInternal, stmtInvalidate, stmtDtor]

/-- A closed result-set wrapper with no back-reference is a fixed point of
every lifecycle entry point. -/
theorem rsApplyOp_absorbed (op : EntityOp) (rs : RsState)
    (hc : rs.closed = true) (hp : rs.parent = none) : rsApplyOp op rs = rs := by
  obtain ⟨h, cc, cn, cls, cl, ex, p, e, ccc⟩ := rs
  simp only at hc hp
  subst hc hp
  cases op <;> simp [rsApplyOp, rsCloseInternal, rsInvalidate]

/-- Each statement lifecycle entry point preserves the release count plus
remaining budget. -/
theorem stmtApplyOp_endCount (op : EntityOp) (s : StmtState) :
    (stmtApplyOp op s).endCount + stmtReleaseBudget (stmtApplyOp op s) ≤
      s.endCount + stmtReleaseBudget s := by
  by_cases hg : ¬s.closed ∧ s.handle.isSome
  · cases op <;>
      simp [stmtApplyOp, stmtCloseInternal, stmtInvalidate, stmtDtor,
        stmtReleaseBudget, hg]
  · cases op <;>
      simp_all [stmtApplyOp, stmtCloseInternal, stmtInvalidate, stmtDtor,
        stmtReleaseBudget] <;>
      (try (split_ifs <;> simp_all))

/-- Each result-set lifecycle entry point preserves the statement-release
count plus remaining budget. -/
theorem rsApplyOp_endCount (op : EntityOp) (rs : RsState) :
    (rsApplyOp op rs).endCount + rsReleaseBudget (rsApplyOp op rs) ≤
      rs.endCount + rsReleaseBudget rs := by
  by_cases hg : ¬rs.closed ∧ rs.handle.isSome
  · cases op <;>
      simp [rsApplyOp, rsCloseInternal, rsInvalidate, rsReleaseBudget, hg]
  · cases op <;>
      simp_all [rsApplyOp, rsCloseInternal, rsInvalidate, rsReleaseBudget] <;>
      (try (split_ifs <;> simp_all))

/-- Each result-set lifecycle entry point preserves the cursor-close count
plus remaining budget. -/
theorem rsApplyOp_closeCursorCount (op : EntityOp) (rs : RsState) :
    (rsApplyOp op rs).closeCursorCount + rsReleaseBudget (rsApplyOp op rs) ≤
      rs.closeCursorCount + rsReleaseBudget rs := by
  by_cases hg : ¬rs.closed ∧ rs.handle.isSome
  · cases op <;>
      simp [rsApplyOp, rsCloseInternal, rsInvalidate, rsReleaseBudget, hg]
  · cases op <;>
      simp_all [rsApplyOp, rsCloseInternal, rsInvalidate, rsReleaseBudget] <;>
      (try (split_ifs <;> simp_all))

/-- Release count plus budget is monotone along any statement op
sequence. -/
theorem stmtRunOps_endCount (ops : List EntityOp) :
    ∀ s : StmtState,
      (stmtRunOps ops s).endCount + stmtReleaseBudget (stmtRunOps ops s) ≤
        s.endCount + stmtReleaseBudget s := by
  induction ops with
  | nil => intro s; exact le_refl _
  | cons op rest ih =>
    intro s
    calc (stmtRunOps (op :: rest) s).endCount
          + stmtReleaseBudget (stmtRunOps (op :: rest) s)
        ≤ (stmtApplyOp op s).endCount + stmtReleaseBudget (stmtApplyOp op s) :=
          ih (stmtApplyOp op s)
      _ ≤ s.endCount + stmtReleaseBudget s := stmtApplyOp_endCount op s

/-- Statement-release count plus budget is monotone along any result-set
op sequence. -/
theorem rsRunOps_endCount (ops : List EntityOp) :
    ∀ rs : RsState,
      (rsRunOps ops rs).endCount + rsReleaseBudget (rsRunOps ops rs) ≤
        rs.endCount + rsReleaseBudget rs := by
  induction ops with
  | nil => intro rs; exact le_refl _
  | cons op rest ih =>
    intro rs
    calc (rsRunOps (op :: rest) rs).endCount
          + rsReleaseBudget (rsRunOps (op :: rest) rs)
        ≤ (rsApplyOp op rs).endCount + rsReleaseBudget (rsApplyOp op rs) :=
          ih (rsApplyOp op rs)
      _ ≤ rs.endCount + rsReleaseBudget rs := rsApplyOp_endCount op rs

/-- Cursor-close count plus budget is monotone along any result-set op
sequence. -/
theorem rsRunOps_closeCursorCount (ops : List EntityOp) :
    ∀ rs : RsState,
      (rsRunOps ops rs).closeCursorCount + rsReleaseBudget (rsRunOps ops rs) ≤
        rs.closeCursorCount + rsReleaseBudget rs := by
  induction ops with
  | nil => intro rs; exact le_refl _
  | cons op rest ih =>
    intro rs
    calc (rsRunOps (op :: rest) rs).closeCursorCount
          + rsReleaseBudget (rsRunOps (op :: rest) rs)
        ≤ (rsApplyOp op rs).closeCursorCount + rsReleaseBudget (rsApplyOp op rs) :=
          ih (rsApplyOp op rs)
      _ ≤ rs.closeCursorCount + rsReleaseBudget rs := rsApplyOp_closeCursorCount op rs

/-- Any op sequence fixes an absorbed statement state. -/
theorem stmtRunOps_absorbed (ops : List EntityOp) :
    ∀ s : StmtState, s.closed = true → s.parent = none → stmtRunOps ops s = s := by
  induction ops with
  | nil => intro s _ _; rfl
  | cons op rest ih =>
    intro s hc hp
    show stmtRunOps rest (stmtApplyOp op s) = s
    rw [stmtApplyOp_absorbed op s hc hp]
    exact ih s hc hp

/-- Any op sequence fixes an absorbed result-set state. -/
theorem rsRunOps_absorbed (ops : List EntityOp) :
    ∀ rs : RsState, rs.closed = true → rs.parent = none → rsRunOps ops rs = rs := by
  induction ops with
  | nil => intro rs _ _; rfl
  | cons op rest ih =>
    intro rs hc hp
    show rsRunOps rest (rsApplyOp op rs) = rs
    rw [rsApplyOp_absorbed op rs hc hp]
    exact ih rs hc hp

/-- C10: `close`, `invalidate` and the destructors release each entity's
engine handle at most once over any call sequence (the closed flag and
the nulled handle are checked before touching the engine), and after a
first `close`/`invalidate` (for result sets: any entry point) the entity
is closed with its back-reference cleared and every further call leaves
its state completely unchanged. -/
theorem entity_release_idempotent :
    (∀ (s : StmtState) (ops : List EntityOp),
        (stmtRunOps ops s).endCount ≤ s.endCount + stmtReleaseBudget s) ∧
    (∀ (s : StmtState) (op : EntityOp) (ops : List EntityOp),
        op = .opClose ∨ op = .opInvalidate →
        (stmtApplyOp op s).closed = true ∧ (stmtApplyOp op s).parent = none ∧
        stmtRunOps ops (stmtApplyOp op s) = stmtApplyOp op s) ∧
    (∀ (rs : RsState) (ops : List EntityOp),
        (rsRunOps ops rs).endCount ≤ rs.endCount + rsReleaseBudget rs ∧
        (rsRunOps ops rs).closeCursorCount ≤ rs.closeCursorCount + rsReleaseBudget rs) ∧
    (∀ (rs : RsState) (op : EntityOp) (ops : List EntityOp),
        (rsApplyOp op rs).closed = true ∧ (rsApplyOp op rs).parent = none ∧
        rsRunOps ops (rsApplyOp op rs) = rsApplyOp op rs) := by
  refine ⟨?_, ?_, ?_, ?_⟩
  · intro s ops
    exact le_trans (Nat.le_add_right _ _) (stmtRunOps_endCount ops s)
  · intro s op ops hop
    have hc : (stmtApplyOp op s).closed = true := by
      rcases hop with rfl | rfl <;>
        simp [stmtApplyOp, stmtCloseInternal, stmtInvalidate]
    have hp : (stmtApplyOp op s).parent = none := by
      rcases hop with rfl | rfl <;>
        simp [stmtApplyOp, stmtCloseInternal, stmtInvalidate]
    exact ⟨hc, hp, stmtRunOps_absorbed ops _ hc hp⟩
  · intro rs ops
    exact ⟨le_trans (Nat.le_add_right _ _) (rsRunOps_endCount ops rs),
      le_trans (Nat.le_add_right _ _) (rsRunOps_closeCursorCount ops rs)⟩
  · intro rs op ops
    have hc : (rsApplyOp op rs).closed = true := by
      cases op <;> simp [rsApplyOp, rsCloseInternal, rsInvalidate]
    have hp : (rsApplyOp op rs).parent = none := by
      cases op <;> simp [rsApplyOp, rsCloseInternal, rsInvalidate]
    exact ⟨hc, hp, rsRunOps_absorbed ops _ hc hp⟩

/-- Witness for the C10 theorem at concrete fixtures: a double
close/invalidate/destroy sequence on the live fixtures releases once and
freezes the state after the first call. -/
theorem entity_release_idempotent_witness :
    (stmtRunOps [.opClose, .opInvalidate, .opDtor] exampleStmt).endCount ≤
      exampleStmt.endCount + stmtReleaseBudget exampleStmt ∧
    stmtRunOps [.opInvalidate, .opDtor] (stmtApplyOp .opClose exampleStmt) =
      stmtApplyOp .opClose exampleStmt ∧
    rsRunOps [.opClose, .opDtor] (rsApplyOp .opInvalidate exampleRs) =
      rsApplyOp .opInvalidate exampleRs :=
  ⟨entity_release_idempotent.1 exampleStmt [.opClose, .opInvalidate, .opDtor],
   (entity_release_idempotent.2.1 exampleStmt .opClose [.opInvalidate, .opDtor]
      (Or.inl rfl)).2.2,
   (entity_release_idempotent.2.2.2 exampleRs .opInvalidate [.opClose, .opDtor]).2.2⟩

end NodeMimer

namespace NodeMimer

/-- The terminal condition of `FetchNext`: closed or exhausted. -/
def rsTerminal (rs : RsState) : Bool := rs.closed || rs.exhausted

/-- When `fetchNext` returns null the cursor is left closed-or-exhausted. -/
theorem rsFetchNext_none_terminal (frc : Int) (resps : List ColResp) (rs : RsState)
    (h : (rsFetchNext frc resps rs).2 = none) :
    rsTerminal (rsFetchNext frc resps rs).1 = true := by
  unfold rsFetchNext at h ⊢
  by_cases h1 : (rs.closed || rs.exhausted) = true
  · simpa [h1, rsTerminal] using h1
  · rw [if_neg (by simp_all)] at h ⊢
    by_cases h2 : frc = MIMER_SUCCESS
    · rw [if_pos h2] at h
      exact absurd h (by simp)
    · rw [if_neg h2]
      simp [rsTerminal]

/-- Closed-or-exhausted is preserved by every caller operation. -/
theorem rsApplyCallerOp_terminal (op : RsOp) (rs : RsState)
    (h : rsTerminal rs = true) : rsTerminal (rsApplyCallerOp op rs) = true := by
  cases op with
  | opFetch frc resps =>
    simp only [rsApplyCallerOp, rsFetchNext]
    rw [if_pos (by simpa [rsTerminal] using h)]
    exact h
  | opClose => simp [rsApplyCallerOp, rsCloseInternal, rsTerminal]
  | opInvalidate => simp [rsApplyCallerOp, rsInvalidate, rsTerminal]
  | opGetFields => exact h

/-- The exhausted flag is never reset by any caller operation. -/
theorem rsApplyCallerOp_exhausted (op : RsOp) (rs : RsState)
    (h : rs.exhausted = true) : (rsApplyCallerOp op rs).exhausted = true := by
  cases op with
  | opFetch frc resps =>
    simp only [rsApplyCallerOp, rsFetchNext]
    split_ifs <;> simp_all
  | opClose =>
    simp only [rsApplyCallerOp, rsCloseInternal]
    split_ifs <;> simp_all
  | opInvalidate =>
    simp only [rsApplyCallerOp, rsInvalidate]
    split_ifs <;> simp_all
  | opGetFields => exact h

/-- Closed-or-exhausted is preserved by any caller operation sequence. -/
theorem rsRunCallerOps_terminal (ops : List RsOp) :
    ∀ rs : RsState, rsTerminal rs = true →
      rsTerminal (rsRunCallerOps ops rs) = true := by
  induction ops with
  | nil => intro rs h; exact h
  | cons op rest ih =>
    intro rs h
    exact ih (rsApplyCallerOp op rs) (rsApplyCallerOp_terminal op rs h)

/-- The exhausted flag survives any caller operation sequence. -/
theorem rsRunCallerOps_exhausted (ops : List RsOp) :
    ∀ rs : RsState, rs.exhausted = true →
      (rsRunCallerOps ops rs).exhausted = true := by
  induction ops with
  | nil => intro rs h; exact h
  | cons op rest ih =>
    intro rs h
    exact ih (rsApplyCallerOp op rs) (rsApplyCallerOp_exhausted op rs h)

/-- A closed-or-exhausted cursor always fetches null. -/
theorem rsFetchNext_terminal_none (frc : Int) (resps : List ColResp) (rs : RsState)
    (h : rsTerminal rs = true) : (rsFetchNext frc resps rs).2 = none := by
  unfold rsFetchNext
  rw [if_pos (by simpa [rsTerminal] using h)]

/-- C5: cursor exhaustion is monotonic and closed is absorbing — once
`fetchNext` has returned null (closed cursor, end-of-data, or engine
fetch error alike), every later `fetchNext`, after any interleaving of
fetches, closes, invalidates and metadata reads, returns null; and the
exhausted flag never reverts. -/
theorem cursor_exhaustion_monotone :
    (∀ (rs : RsState) (frc : Int) (resps : List ColResp),
        (rsFetchNext frc resps rs).2 = none →
        ∀ (ops : List RsOp) (frc2 : Int) (resps2 : List ColResp),
          (rsFetchNext frc2 resps2
            (rsRunCallerOps ops (rsFetchNext frc resps rs).1)).2 = none) ∧
    (∀ (rs : RsState) (ops : List RsOp), rs.exhausted = true →
        (rsRunCallerOps ops rs).exhausted = true) := by
  constructor
  · intro rs frc resps h ops frc2 resps2
    exact rsFetchNext_terminal_none frc2 resps2 _
      (rsRunCallerOps_terminal ops _ (rsFetchNext_none_terminal frc resps rs h))
  · intro rs ops h
    exact rsRunCallerOps_exhausted ops rs h

/-- Witness for the C5 theorem: the live fixture, exhausted by an
end-of-data fetch status (100), keeps returning null through a later
fetch after an interleaved metadata read. -/
theorem cursor_exhaustion_monotone_witness :
    (rsFetchNext 100 [] exampleRs).2 = none ∧
    (rsFetchNext 0 [] (rsRunCallerOps [.opGetFields]
      (rsFetchNext 100 [] exampleRs).1)).2 = none :=
  ⟨by rfl,
   cursor_exhaustion_monotone.1 exampleRs 100 [] (by rfl) [.opGetFields] 0 []⟩

end NodeMimer

namespace NodeMimer

/-- Effect of `MimerStmtWrapper::Invalidate` on the wrapper state: closed,
back-reference cleared, handle released exactly when it was live (and
nulled whenever the wrapper was open). -/
theorem stmtInvalidate_spec (s : StmtState) :
    (stmtInvalidate s).closed = true ∧ (stmtInvalidate s).parent = none ∧
    (stmtInvalidate s).endCount = s.endCount + stmtReleaseBudget s ∧
    (s.closed = false → (stmtInvalidate s).handle = none) := by
  by_cases hg : ¬s.closed ∧ s.handle.isSome
  · simp [stmtInvalidate, stmtReleaseBudget, hg]
  · have hg2 : ¬(s.closed = false ∧ s.handle.isSome = true) := by simpa using hg
    refine ⟨by simp [stmtInvalidate, hg2], by simp [stmtInvalidate, hg2],
      by simp [stmtInvalidate, stmtReleaseBudget, hg2], fun hc => ?_⟩
    have hh : s.handle = none := by
      rcases hs : s.handle with - | x
      · rfl
      · exact absurd ⟨by simp [hc], by simp [hs]⟩ hg
    simp [stmtInvalidate, hg2, hh]

/-- Effect of `MimerResultSetWrapper::Invalidate` on the wrapper state. -/
theorem rsInvalidate_spec (rs : RsState) :
    (rsInvalidate rs).closed = true ∧ (rsInvalidate rs).parent = none ∧
    (rsInvalidate rs).endCount = rs.endCount + rsReleaseBudget rs ∧
    (rsInvalidate rs).closeCursorCount = rs.closeCursorCount + rsReleaseBudget rs ∧
    (rs.closed = false → (rsInvalidate rs).handle = none) := by
  by_cases hg : ¬rs.closed ∧ rs.handle.isSome
  · simp [rsInvalidate, rsReleaseBudget, hg]
  · have hg2 : ¬(rs.closed = false ∧ rs.handle.isSome = true) := by simpa using hg
    refine ⟨by simp [rsInvalidate, hg2], by simp [rsInvalidate, hg2],
      by simp [rsInvalidate, rsReleaseBudget, hg2],
      by simp [rsInvalidate, rsReleaseBudget, hg2], fun hc => ?_⟩
    have hh : rs.handle = none := by
      rcases hs : rs.handle with - | x
      · rfl
      · exact absurd ⟨by simp [hc], by simp [hs]⟩ hg
    simp [rsInvalidate, hg2, hh]

/-- The explicit outcome of `Close` on a connected session with a live
handle. -/
theorem connClose_connected (c : ConnState) (rc : Int)
    (hconn : c.connected = true) (hsess : c.session.isSome) :
    connClose rc c =
      { state :=
          { session := none
            connected := false
            openStatements := []
            openResultSets := []
            stmts := fun id =>
              if id ∈ c.openStatements then stmtInvalidate (c.stmts id) else c.stmts id
            rss := fun id =>
              if id ∈ c.openResultSets then rsInvalidate (c.rss id) else c.rss id
            sessionEndCount := c.sessionEndCount + 1 }
        ret := true
        thrown := if rc < 0 then
            some { mimerCode := rc, operation := "MimerEndSession" }
          else none
        events := c.openResultSets.map ConnEvent.evInvalidateRs
          ++ c.openStatements.map ConnEvent.evInvalidateStmt
          ++ [ConnEvent.evEndSession] } := by
  unfold connClose
  rw [if_neg (by simp [hconn])]
  rw [if_pos (by simpa using hsess)]

/-- C1: closing a connected session invalidates every registered result
set and statement (marking them closed, nulling and releasing their live
handles exactly once), clears both registries, and only then ends the
session handle; afterwards `execute` on any of those statements fails
with the statement-closed error without touching the engine, `fetchNext`
on any of those result sets returns null, and `getFields` returns the
empty array. -/
theorem session_close_invalidates_all (c : ConnState) (rc : Int)
    (hconn : c.connected = true) (hsess : c.session.isSome)
    (hstmtOpen : ∀ id ∈ c.openStatements, (c.stmts id).closed = false)
    (hrsOpen : ∀ id ∈ c.openResultSets, (c.rss id).closed = false) :
    (connClose rc c).state.openStatements = [] ∧
    (connClose rc c).state.openResultSets = [] ∧
    (connClose rc c).state.session = none ∧
    (connClose rc c).events.getLast? = some .evEndSession ∧
    (∀ id ∈ c.openResultSets,
        ConnEvent.evInvalidateRs id ∈ (connClose rc c).events.dropLast) ∧
    (∀ id ∈ c.openStatements,
        ConnEvent.evInvalidateStmt id ∈ (connClose rc c).events.dropLast) ∧
    (∀ id ∈ c.openStatements,
        ((connClose rc c).state.stmts id).closed = true ∧
        ((connClose rc c).state.stmts id).handle = none ∧
        ((connClose rc c).state.stmts id).endCount =
          (c.stmts id).endCount + stmtReleaseBudget (c.stmts id) ∧
        ∀ eng params,
          stmtExecute eng ((connClose rc c).state.stmts id) params =
            some .thrownStatementClosed) ∧
    (∀ id ∈ c.openResultSets,
        ((connClose rc c).state.rss id).closed = true ∧
        ((connClose rc c).state.rss id).handle = none ∧
        ((connClose rc c).state.rss id).endCount =
          (c.rss id).endCount + rsReleaseBudget (c.rss id) ∧
        (∀ frc resps,
          rsFetchNext frc resps ((connClose rc c).state.rss id) =
            ((connClose rc c).state.rss id, none)) ∧
        (∀ colName colType typeNameOf,
          rsGetFields colName colType typeNameOf
            ((connClose rc c).state.rss id) = [])) := by
  rw [connClose_connected c rc hconn hsess]
  simp only [List.dropLast_concat, List.getLast?_concat]
  refine ⟨trivial, trivial, trivial, trivial, ?_, ?_, ?_, ?_⟩
  · intro id hid
    exact List.mem_append_left _ (List.mem_map_of_mem _ hid)
  · intro id hid
    exact List.mem_append_right _ (List.mem_map_of_mem _ hid)
  · intro id hid
    simp only [if_pos hid]
    obtain ⟨h1, h2, h3, h4⟩ := stmtInvalidate_spec (c.stmts id)
    refine ⟨h1, h4 (hstmtOpen id hid), h3, ?_⟩
    intro eng params
    unfold stmtExecute
    rw [if_pos h1]
  · intro id hid
    simp only [if_pos hid]
    obtain ⟨h1, h2, h3, h4, h5⟩ := rsInvalidate_spec (c.rss id)
    refine ⟨h1, h5 (hrsOpen id hid), h3, ?_, ?_⟩
    · intro frc resps
      unfold rsFetchNext
      rw [if_pos (by simp [h1])]
    · intro colName colType typeNameOf
      unfold rsGetFields
      rw [if_pos h1]

/-- A statement-execute engine fixture with every call succeeding. -/
def exampleStmtEngine : StmtEngine :=
  { meta := exampleMeta1, bindEngine := okBindEngine, colName := fun _ => "A",
    colType := fun _ => 0, typeNameOf := fun _ => "", classify := fun _ => .cOther,
    openCursorRc := 0, executeRc := 0, rowResps := [] }

/-- Witness for the C1 theorem at the concrete connected fixture. -/
theorem session_close_invalidates_all_witness :
    (connClose 0 exampleConn).state.openStatements = [] ∧
    stmtExecute exampleStmtEngine ((connClose 0 exampleConn).state.stmts 1) [] =
      some .thrownStatementClosed ∧
    (rsFetchNext 0 [] ((connClose 0 exampleConn).state.rss 2)).2 = none ∧
    rsGetFields (fun _ => "A") (fun _ => (0 : Int)) (fun _ => "")
      ((connClose 0 exampleConn).state.rss 2) = [] := by
  have h := session_close_invalidates_all exampleConn 0 (by rfl) (by rfl)
    (by intro id hid; rfl) (by intro id hid; rfl)
  refine ⟨h.1, ?_, ?_, ?_⟩
  · exact (h.2.2.2.2.2.2.1 1 (by decide)).2.2.2 exampleStmtEngine []
  · exact congrArg Prod.snd ((h.2.2.2.2.2.2.2 2 (by decide)).2.2.2.1 0 [])
  · exact (h.2.2.2.2.2.2.2 2 (by decide)).2.2.2.2 (fun _ => "A") (fun _ => (0 : Int))
      (fun _ => "")

end NodeMimer

namespace NodeMimer

/-- Witness for the C6 theorem: a concrete one-column fields array whose
raw type code is the native nullable INTEGER code. -/
theorem nullable_flag_characterization_witness :
    (({ name := "A", dataTypeCode := MIMER_NATIVE_INTEGER_NULLABLE,
        dataTypeName := "INTEGER", nullable := true } : FieldMeta).nullable = true ↔
      ({ name := "A", dataTypeCode := MIMER_NATIVE_INTEGER_NULLABLE,
         dataTypeName := "INTEGER", nullable := true } : FieldMeta).dataTypeCode < 0 ∨
      ({ name := "A", dataTypeCode := MIMER_NATIVE_INTEGER_NULLABLE,
         dataTypeName := "INTEGER", nullable := true } : FieldMeta).dataTypeCode ∈
        nativeNullableCodes) ∧
    MIMER_NATIVE_INTEGER_NULLABLE % 2 = 0 :=
  ⟨nullable_flag_characterization.1 (fun _ => "A")
     (fun _ => MIMER_NATIVE_INTEGER_NULLABLE) (fun _ => "INTEGER") 1 _ (by decide),
   (nullable_flag_characterization.2 MIMER_NATIVE_INTEGER_NULLABLE (by decide)).1⟩

end NodeMimer

namespace NodeMimer

/-- Byte access commutes with dropping a prefix. -/
theorem byteAt_drop (l : List Nat) (k i : Nat) :
    byteAt (l.drop k) i = byteAt l (i + k) := by
  unfold byteAt
  rw [List.drop_drop, Nat.add_comm]

/-- The boundary shrink never grows the candidate chunk. -/
theorem shrinkToBoundary_le (data : List Nat) (offset remaining : Nat) :
    ∀ c, shrinkToBoundary data offset remaining c ≤ c := by
  intro c
  induction c with
  | zero => exact le_refl 0
  | succ c ih =>
    unfold shrinkToBoundary
    split_ifs
    · exact le_trans ih (Nat.le_succ c)
    · exact le_refl _

/-- Any candidate at which the shrink loop's continue-condition fails is a
lower bound for the shrink result. -/
theorem shrinkToBoundary_ge (data : List Nat) (offset remaining : Nat) :
    ∀ c d, d ≤ c →
      (d = 0 ∨ ¬(d < remaining ∧ isCont (byteAt data (offset + d)))) →
      d ≤ shrinkToBoundary data offset remaining c := by
  intro c
  induction c with
  | zero =>
    intro d hd _
    simp only [Nat.le_zero] at hd
    subst hd
    exact Nat.zero_le _
  | succ c ih =>
    intro d hd hstop
    unfold shrinkToBoundary
    split_ifs with hcond
    · rcases Nat.lt_or_ge d (c + 1) with hlt | hge
      · exact ih d (Nat.lt_succ_iff.mp hlt) hstop
      · have : d = c + 1 := le_antisymm hd hge
        subst this
        rcases hstop with h0 | hns
        · omega
        · exact absurd hcond hns
    · exact hd

/-- The shrink result satisfies the loop's stop condition. -/
theorem shrinkToBoundary_stop (data : List Nat) (offset remaining : Nat) :
    ∀ c, shrinkToBoundary data offset remaining c = 0 ∨
      ¬(shrinkToBoundary data offset remaining c < remaining ∧
        isCont (byteAt data (offset + shrinkToBoundary data offset remaining c))) := by
  intro c
  induction c with
  | zero => exact Or.inl rfl
  | succ c ih =>
    unfold shrinkToBoundary
    split_ifs with hcond
    · exact ih
    · exact Or.inr hcond

/-- The lead-byte classification is between 1 and 4. -/
theorem utf8SeqLen_bounds (b : Nat) : 1 ≤ utf8SeqLen b ∧ utf8SeqLen b ≤ 4 := by
  unfold utf8SeqLen
  split_ifs <;> omega

/-- The scanner with `e` pending continuation bytes accepts exactly when
the next `e` bytes are continuations and the rest is valid. -/
theorem validUtf8From_eq : ∀ (l : List Nat) (e : Nat),
    validUtf8From e l =
      (decide (e ≤ l.length) && (l.take e).all isCont && validUtf8 (l.drop e)) := by
  intro l
  induction l with
  | nil =>
    intro e
    cases e <;> simp [validUtf8From, validUtf8]
  | cons b rest ih =>
    intro e
    cases e with
    | zero => simp [validUtf8From, validUtf8]
    | succ e =>
      cases hb : isCont b <;>
        simp [validUtf8From, ih e, validUtf8, hb, Nat.succ_le_succ_iff]

/-- Unfolding characterization of `validUtf8` on a non-empty string. -/
theorem validUtf8_cons_iff (b : Nat) (rest : List Nat) :
    validUtf8 (b :: rest) = true ↔
      isCont b = false ∧ utf8SeqLen b - 1 ≤ rest.length ∧
      (rest.take (utf8SeqLen b - 1)).all isCont = true ∧
      validUtf8 (rest.drop (utf8SeqLen b - 1)) = true := by
  show validUtf8From 0 (b :: rest) = true ↔ _
  rw [show validUtf8From 0 (b :: rest) =
      (!isCont b && validUtf8From (utf8SeqLen b - 1) rest) from rfl]
  rw [validUtf8From_eq rest (utf8SeqLen b - 1)]
  simp [Bool.and_assoc]

/-- An element in a `take`-prefix where `all` holds satisfies the
predicate. -/
theorem all_take_byteAt (P : Nat → Bool) :
    ∀ (l : List Nat) (k i : Nat), (l.take k).all P = true → i < k →
      i < l.length → P (byteAt l i) = true := by
  intro l
  induction l with
  | nil => intro k i _ _ h; simp at h
  | cons x t ih =>
    intro k i hall hik hil
    cases k with
    | zero => omega
    | succ k =>
      cases i with
      | zero =>
        simp only [List.take_succ_cons, List.all_cons, Bool.and_eq_true] at hall
        exact hall.1
      | succ i =>
        simp only [List.take_succ_cons, List.all_cons, Bool.and_eq_true] at hall
        exact ih k i hall.2 (by omega) (by simpa using Nat.lt_of_succ_lt_succ hil)

end NodeMimer

namespace NodeMimer

/-- In a structurally valid UTF-8 string there is a code-point start (a
non-continuation byte) within 3 positions below any position. -/
theorem validUtf8_noRun : ∀ (s : List Nat), validUtf8 s = true → ∀ c, c < s.length →
    ∃ d, d ≤ c ∧ c - d ≤ 3 ∧ isCont (byteAt s d) = false
  | [] => by intro _ c hc; simp at hc
  | b :: rest => by
    intro hv c hc
    rw [validUtf8_cons_iff] at hv
    obtain ⟨hb, hk, hall, hrec⟩ := hv
    rcases Nat.lt_or_ge c (utf8SeqLen b - 1 + 1) with hck | hck
    · exact ⟨0, Nat.zero_le c, by have := (utf8SeqLen_bounds b).2; omega, hb⟩
    · have hlen2 : c - (utf8SeqLen b - 1 + 1) < (rest.drop (utf8SeqLen b - 1)).length := by
        simp only [List.length_drop]
        simp only [List.length_cons] at hc
        omega
      obtain ⟨d2, hd2le, hd2gap, hd2nc⟩ :=
        validUtf8_noRun (rest.drop (utf8SeqLen b - 1)) hrec
          (c - (utf8SeqLen b - 1 + 1)) hlen2
      refine ⟨d2 + (utf8SeqLen b - 1 + 1), by omega, by omega, ?_⟩
      rw [byteAt_drop] at hd2nc
      have hidx : d2 + (utf8SeqLen b - 1 + 1) = (d2 + (utf8SeqLen b - 1)) + 1 := by omega
      rw [hidx]
      have heq : byteAt (b :: rest) ((d2 + (utf8SeqLen b - 1)) + 1) =
          byteAt rest (d2 + (utf8SeqLen b - 1)) := rfl
      rw [heq]
      exact hd2nc
termination_by s => s.length
decreasing_by
  simp only [List.length_cons, List.length_drop]
  omega

/-- Splitting a structurally valid UTF-8 string at a code-point boundary
(a non-continuation byte or the end) leaves two structurally valid
parts. -/
theorem validUtf8_split : ∀ (s : List Nat), validUtf8 s = true → ∀ c, c ≤ s.length →
    (c = s.length ∨ isCont (byteAt s c) = false) →
    validUtf8 (s.take c) = true ∧ validUtf8 (s.drop c) = true
  | [] => by
    intro _ c hc _
    simp only [List.length_nil, Nat.le_zero] at hc
    subst hc
    exact ⟨rfl, rfl⟩
  | b :: rest => by
    intro hv c hc hbd
    have hv2 := hv
    rw [validUtf8_cons_iff] at hv
    obtain ⟨hb, hk, hall, hrec⟩ := hv
    rcases Nat.eq_zero_or_pos c with rfl | hcpos
    · exact ⟨rfl, hv2⟩
    · have hcl : rest.length + 1 = (b :: rest).length := by simp
      rcases Nat.lt_or_ge c (utf8SeqLen b - 1 + 1) with hck | hck
      · exfalso
        rcases hbd with hce | hnc
        · simp only [List.length_cons] at hce
          omega
        · have hc1 : c - 1 < utf8SeqLen b - 1 := by omega
          have hc1l : c - 1 < rest.length := by
            simp only [List.length_cons] at hc
            omega
          have hcont := all_take_byteAt isCont rest (utf8SeqLen b - 1) (c - 1)
            hall hc1 hc1l
          have h2 : c = (c - 1) + 1 := by omega
          have heq : byteAt (b :: rest) c = byteAt rest (c - 1) := by
            conv_lhs => rw [h2]
            rfl
          rw [heq, hcont] at hnc
          exact absurd hnc (by decide)
      · have hc2 : c - (utf8SeqLen b - 1 + 1) ≤ (rest.drop (utf8SeqLen b - 1)).length := by
          simp only [List.length_drop]
          simp only [List.length_cons] at hc
          omega
        have h2c : c = (c - 1) + 1 := by omega
        have heqc : byteAt (b :: rest) c = byteAt rest (c - 1) := by
          conv_lhs => rw [h2c]
          rfl
        have hbd2 : c - (utf8SeqLen b - 1 + 1) = (rest.drop (utf8SeqLen b - 1)).length ∨
            isCont (byteAt (rest.drop (utf8SeqLen b - 1))
              (c - (utf8SeqLen b - 1 + 1))) = false := by
          rcases hbd with hce | hnc
          · left
            simp only [List.length_drop]
            simp only [List.length_cons] at hce
            omega
          · right
            rw [byteAt_drop]
            have h3 : c - (utf8SeqLen b - 1 + 1) + (utf8SeqLen b - 1) = c - 1 := by omega
            rw [h3, ← heqc]
            exact hnc
        obtain ⟨ht, hd⟩ := validUtf8_split (rest.drop (utf8SeqLen b - 1)) hrec
          (c - (utf8SeqLen b - 1 + 1)) hc2 hbd2
        have hclen : c - 1 ≤ rest.length := by
          simp only [List.length_cons] at hc
          omega
        constructor
        · have h2 : c = (c - 1) + 1 := by omega
          rw [h2, List.take_succ_cons, validUtf8_cons_iff]
          refine ⟨hb, ?_, ?_, ?_⟩
          · rw [List.length_take]
            omega
          · rw [List.take_take, Nat.min_eq_left (by omega)]
            exact hall
          · rw [List.drop_take]
            have h4 : c - 1 - (utf8SeqLen b - 1) = c - (utf8SeqLen b - 1 + 1) := by omega
            rw [h4]
            exact ht
        · have h5 : (b :: rest).drop c =
              (rest.drop (utf8SeqLen b - 1)).drop (c - (utf8SeqLen b - 1 + 1)) := by
            rw [List.drop_drop]
            have h6 : c = utf8SeqLen b - 1 + (c - (utf8SeqLen b - 1 + 1)) + 1 := by omega
            conv_lhs => rw [h6]
            rfl
          rw [h5]
          exact hd
termination_by s => s.length
decreasing_by
  simp only [List.length_cons, List.length_drop]
  omega

end NodeMimer

namespace NodeMimer

/-- A join of nonempty lists is empty only for the empty list of lists. -/
theorem join_nil_of_all_ne_nil {L : List (List Nat)} (hj : L.join = [])
    (hne : ∀ ch ∈ L, ch ≠ []) : L = [] := by
  cases L with
  | nil => rfl
  | cons h t =>
    exfalso
    simp only [List.join_cons, List.append_eq_nil] at hj
    exact hne h (List.mem_cons_self h t) hj.1

/-- Four bytes fit in a write chunk. -/
theorem four_le_lob_write_chunk : 4 ≤ LOB_WRITE_CHUNK := by
  norm_num [LOB_WRITE_CHUNK]

/-- Full specification of the NCLOB write loop on structurally valid
UTF-8 input when every engine write succeeds: the loop terminates, the
chunks written concatenate back to exactly the input suffix, every chunk
is nonempty, within the write-chunk bound and itself structurally valid
UTF-8 (so no chunk boundary splits a multi-byte sequence), and every
non-final chunk is within 3 bytes of the full write-chunk size (the
boundary shrink backs up to the nearest preceding code-point start). -/
theorem nclobWriteLoop_spec (eng : BindEngine) (data : List Nat)
    (hw : ∀ ch, 0 ≤ eng.rcOf (.setNclobData ch)) :
    ∀ (remaining offset : Nat) (rc : Int), offset + remaining = data.length →
      0 ≤ rc → validUtf8 (data.drop offset) = true →
      ∃ rcF chunks, nclobWriteLoop eng data offset remaining rc = some (rcF, chunks) ∧
        chunks.join = data.drop offset ∧
        (∀ ch ∈ chunks, ch ≠ [] ∧ ch.length ≤ LOB_WRITE_CHUNK ∧ validUtf8 ch = true) ∧
        (∀ pre ch suf, chunks = pre ++ ch :: suf → suf ≠ [] →
          LOB_WRITE_CHUNK - 3 ≤ ch.length) := by
  intro remaining
  induction remaining using Nat.strong_induction_on with
  | _ remaining ih =>
    intro offset rc hlen hrc hv
    rcases Nat.eq_zero_or_pos remaining with hrem0 | hrempos
    · subst hrem0
      refine ⟨rc, [], ?_, ?_, by simp, by intro pre ch suf hx _; simp at hx⟩
      · rw [nclobWriteLoop, dif_neg (by omega)]
      · rw [List.drop_eq_nil_of_le (by omega)]
        rfl
    · have hcond : 0 < remaining ∧ 0 ≤ rc := ⟨hrempos, hrc⟩
      have hoffle : offset ≤ data.length := by omega
      have htl : (data.drop offset).length = remaining := by
        rw [List.length_drop]
        omega
      have hchunk_le : shrinkToBoundary data offset remaining
          (min remaining LOB_WRITE_CHUNK) ≤ min remaining LOB_WRITE_CHUNK :=
        shrinkToBoundary_le data offset remaining _
      have hchunk_rem : shrinkToBoundary data offset remaining
          (min remaining LOB_WRITE_CHUNK) ≤ remaining :=
        le_trans hchunk_le (Nat.min_le_left _ _)
      have hchunk_w : shrinkToBoundary data offset remaining
          (min remaining LOB_WRITE_CHUNK) ≤ LOB_WRITE_CHUNK :=
        le_trans hchunk_le (Nat.min_le_right _ _)
      have hchunk_cases : shrinkToBoundary data offset remaining
            (min remaining LOB_WRITE_CHUNK) = remaining ∨
          LOB_WRITE_CHUNK - 3 ≤ shrinkToBoundary data offset remaining
            (min remaining LOB_WRITE_CHUNK) := by
        rcases le_or_lt remaining LOB_WRITE_CHUNK with hrw | hrw
        · left
          have hmin : min remaining LOB_WRITE_CHUNK = remaining :=
            Nat.min_eq_left hrw
          refine le_antisymm hchunk_rem ?_
          rw [hmin]
          exact shrinkToBoundary_ge data offset remaining remaining remaining
            (le_refl _) (Or.inr (by simp))
        · right
          have hmin : min remaining LOB_WRITE_CHUNK = LOB_WRITE_CHUNK :=
            Nat.min_eq_right (le_of_lt hrw)
          obtain ⟨d, hdle, hdgap, hdnc⟩ := validUtf8_noRun (data.drop offset) hv
            LOB_WRITE_CHUNK (by omega)
          rw [byteAt_drop] at hdnc
          have hge := shrinkToBoundary_ge data offset remaining
            (min remaining LOB_WRITE_CHUNK) d (by omega)
            (Or.inr (by rw [Nat.add_comm d offset] at hdnc; simp [hdnc]))
          omega
      have hchunk_pos : 0 < shrinkToBoundary data offset remaining
          (min remaining LOB_WRITE_CHUNK) := by
        have h4 := four_le_lob_write_chunk
        rcases hchunk_cases with h | h <;> omega
      have hbd : shrinkToBoundary data offset remaining
            (min remaining LOB_WRITE_CHUNK) = (data.drop offset).length ∨
          isCont (byteAt (data.drop offset) (shrinkToBoundary data offset remaining
            (min remaining LOB_WRITE_CHUNK))) = false := by
        rcases shrinkToBoundary_stop data offset remaining
            (min remaining LOB_WRITE_CHUNK) with h0 | hstop
        · omega
        · rcases Nat.lt_or_ge (shrinkToBoundary data offset remaining
              (min remaining LOB_WRITE_CHUNK)) remaining with hlt | hge2
          · right
            rw [byteAt_drop, Nat.add_comm]
            rcases Bool.eq_false_or_eq_true
                (isCont (byteAt data (offset + shrinkToBoundary data offset remaining
                  (min remaining LOB_WRITE_CHUNK)))) with ht | hf
            · exact absurd ⟨hlt, ht⟩ hstop
            · exact hf
          · left
            omega
      obtain ⟨htake, hdrop⟩ := validUtf8_split (data.drop offset) hv
        (shrinkToBoundary data offset remaining (min remaining LOB_WRITE_CHUNK))
        (by omega) hbd
      have hdropdrop : (data.drop offset).drop (shrinkToBoundary data offset remaining
          (min remaining LOB_WRITE_CHUNK)) = data.drop (offset + shrinkToBoundary data
          offset remaining (min remaining LOB_WRITE_CHUNK)) := by
        rw [List.drop_drop, Nat.add_comm]
      obtain ⟨rcF, chunks2, heq2, hjoin2, hprops2, hmax2⟩ :=
        ih (remaining - shrinkToBoundary data offset remaining
            (min remaining LOB_WRITE_CHUNK)) (by omega)
          (offset + shrinkToBoundary data offset remaining
            (min remaining LOB_WRITE_CHUNK))
          (eng.rcOf (.setNclobData ((data.drop offset).take (shrinkToBoundary data
            offset remaining (min remaining LOB_WRITE_CHUNK)))))
          (by omega) (hw _) (by rw [← hdropdrop]; exact hdrop)
      refine ⟨rcF, (data.drop offset).take (shrinkToBoundary data offset remaining
          (min remaining LOB_WRITE_CHUNK)) :: chunks2, ?_, ?_, ?_, ?_⟩
      · rw [nclobWriteLoop, dif_pos hcond, dif_neg (by omega)]
        simp only [heq2]
      · simp only [List.join_cons, hjoin2, hdropdrop.symm]
        rw [hdropdrop, ← hdropdrop, List.take_append_drop]
      · intro ch hch
        rcases List.mem_cons.mp hch with rfl | hmem
        · refine ⟨?_, ?_, htake⟩
          · have hlt : 0 < ((data.drop offset).take (shrinkToBoundary data offset
                remaining (min remaining LOB_WRITE_CHUNK))).length := by
              rw [List.length_take]
              omega
            exact List.ne_nil_of_length_pos hlt
          · calc ((data.drop offset).take _).length ≤ _ := List.length_take_le _ _
              _ ≤ LOB_WRITE_CHUNK := hchunk_w
        · exact hprops2 ch hmem
      · intro pre ch suf hx hsuf
        cases pre with
        | nil =>
          simp only [List.nil_append, List.cons.injEq] at hx
          obtain ⟨hx1, hx2⟩ := hx
          subst hx1
          have hlt : shrinkToBoundary data offset remaining
              (min remaining LOB_WRITE_CHUNK) < remaining := by
            by_contra hnlt
            have hre : shrinkToBoundary data offset remaining
                (min remaining LOB_WRITE_CHUNK) = remaining := by omega
            have hz : (data.drop (offset + shrinkToBoundary data offset remaining
                (min remaining LOB_WRITE_CHUNK))) = [] := by
              apply List.drop_eq_nil_of_le
              omega
            have : chunks2 = [] := join_nil_of_all_ne_nil (by rw [hjoin2, hz])
              (fun c hc => (hprops2 c hc).1)
            subst hx2
            exact hsuf this
          have hW : shrinkToBoundary data offset remaining
              (min remaining LOB_WRITE_CHUNK) ≥ LOB_WRITE_CHUNK - 3 := by
            rcases hchunk_cases with h | h
            · omega
            · exact h
          rw [List.length_take]
          omega
        | cons p pre2 =>
          simp only [List.cons_append, List.cons.injEq] at hx
          exact hmax2 pre2 ch suf hx.2 hsuf

/-- C8: for every character-LOB write of a structurally valid UTF-8 byte
string with the engine accepting each chunk, the write loop terminates,
every chunk passed to `MimerSetNclobData8` is nonempty, bounded by the
write-chunk size and itself valid UTF-8 (no chunk boundary ever splits a
multi-byte sequence — a chunk that would is shrunk to the nearest
preceding code-point boundary, staying within 3 bytes of the nominal
size, with the split bytes carried into the next chunk), and the
concatenation of all written chunks equals the original byte string. -/
theorem nclob_chunking_boundary_safe (eng : BindEngine) (data : List Nat)
    (hv : validUtf8 data = true)
    (hw : ∀ ch, 0 ≤ eng.rcOf (.setNclobData ch)) :
    ∃ rcF chunks, nclobWriteLoop eng data 0 data.length 0 = some (rcF, chunks) ∧
      chunks.join = data ∧
      (∀ ch ∈ chunks, ch ≠ [] ∧ ch.length ≤ LOB_WRITE_CHUNK ∧ validUtf8 ch = true) ∧
      (∀ pre ch suf, chunks = pre ++ ch :: suf → suf ≠ [] →
        LOB_WRITE_CHUNK - 3 ≤ ch.length) := by
  obtain ⟨rcF, chunks, h1, h2, h3, h4⟩ := nclobWriteLoop_spec eng data hw
    data.length 0 0 (by omega) (le_refl 0) (by simpa using hv)
  exact ⟨rcF, chunks, h1, by simpa using h2, h3, h4⟩

/-- Witness for the C8 theorem: a concrete two-code-point UTF-8 string
("Aé", bytes 41 C3 A9) written through an always-succeeding engine. -/
theorem nclob_chunking_boundary_safe_witness :
    validUtf8 [0x41, 0xC3, 0xA9] = true ∧
    ∃ rcF chunks,
      nclobWriteLoop okBindEngine [0x41, 0xC3, 0xA9] 0 3 0 = some (rcF, chunks) ∧
      chunks.join = [0x41, 0xC3, 0xA9] ∧
      (∀ ch ∈ chunks, ch ≠ [] ∧ ch.length ≤ LOB_WRITE_CHUNK ∧ validUtf8 ch = true) ∧
      (∀ pre ch suf, chunks = pre ++ ch :: suf → suf ≠ [] →
        LOB_WRITE_CHUNK - 3 ≤ ch.length) :=
  ⟨by decide,
   nclob_chunking_boundary_safe okBindEngine [0x41, 0xC3, 0xA9] (by decide)
     (fun ch => le_refl 0)⟩

end NodeMimer
